import Mathlib

/-!
Verification of the PR_labs lab_2 HTTP file servers.

This file gives a shallow embedding of the request-handling logic of the
three server variants in `src/lab_2`:

* `server.py` — the raw-socket server (`safe_path`, `list_directory`,
  `guess_mime`, `handle_request`);
* `multithreaded_server_lock.py` / `multithreaded_server_no_lock.py` — the
  threaded servers (`do_GET`, `list_directory`, the sliding-window rate
  limiter, and the locked / unlocked per-path request counter).

Python strings are modelled as Lean `String`s (lists of characters); the
filesystem, the MIME classifier (`mimetypes.guess_type`) and
`SimpleHTTPRequestHandler.translate_path` — all external collaborators of
the core logic — are modelled as explicit function-valued parameters.
Path resolution (`pathlib.Path.resolve`) is modelled lexically, i.e. for
a filesystem without symbolic links; byte/str distinctions and UTF-8
multi-byte percent-escapes are outside the model (all inputs of interest
are character-level faithful for ASCII and for single-byte escapes).
The shared-counter concurrency of the threaded variants is modelled by an
explicit small-step interleaving semantics further below.
-/

/-! ## Python string primitives -/

/-- `str.startswith`: does `s` start with `t`? -/
def startswith (s t : String) : Bool := t.data.isPrefixOf s.data

/-- Value of a hexadecimal digit character, as used by `urllib.parse.unquote`. -/
def hexVal (c : Char) : Option ℕ :=
  if '0' ≤ c ∧ c ≤ '9' then some (c.toNat - 48)
  else if 'a' ≤ c ∧ c ≤ 'f' then some (c.toNat - 87)
  else if 'A' ≤ c ∧ c ≤ 'F' then some (c.toNat - 55)
  else none

/-- Worker for `unquote`. The first argument is a fuel bound (one unit per
consumed character, so `l.length` units always suffice); it only makes the
recursion structural and never runs out on the calls made by `unquote`. -/
def unquoteAux : ℕ → List Char → List Char
  | 0, l => l
  | _, [] => []
  | fuel+1, c :: rest =>
    if c = '%' then
      match rest with
      | a :: b :: rest2 =>
        match hexVal a, hexVal b with
        | some x, some y => Char.ofNat (16 * x + y) :: unquoteAux fuel rest2
        | _, _ => c :: unquoteAux fuel rest
      | _ => c :: unquoteAux fuel rest
    else c :: unquoteAux fuel rest

/-- `urllib.parse.unquote` on characters: a `%` followed by two hex digits
decodes to the character with that code; an ill-formed escape is kept
verbatim. (Multi-byte UTF-8 escape sequences are outside the model.) -/
def unquote (l : List Char) : List Char := unquoteAux l.length l

/-- `urllib.parse.unquote` on strings. -/
def unquoteStr (s : String) : String := ⟨unquote s.data⟩

/-- Split a character list on `/`, keeping empty components (the behaviour
of POSIX path parsing on the string form of a path). -/
def splitSlash : List Char → List (List Char)
  | [] => [[]]
  | c :: rest =>
    let gs := splitSlash rest
    if c = '/' then [] :: gs
    else (c :: gs.headD []) :: gs.tail

/-- Lexical normalisation pass of `pathlib.Path.resolve` (no symlinks):
empty and `.` components vanish, `..` pops the previous component (and is
a no-op at the root). The accumulator holds the already-processed
components in reverse order. -/
def normAcc (acc : List (List Char)) : List (List Char) → List (List Char)
  | [] => acc
  | seg :: rest =>
    if seg = [] ∨ seg = ['.'] then normAcc acc rest
    else if seg = ['.', '.'] then normAcc acc.tail rest
    else normAcc (seg :: acc) rest

/-- Components of the canonical form of an absolute path string. -/
def resolveSegs (s : String) : List (List Char) := (normAcc [] (splitSlash s.data)).reverse

/-- Join path components with `/`. -/
def joinSlash : List (List Char) → List Char
  | [] => []
  | [g] => g
  | g :: gs => g ++ '/' :: joinSlash gs

/-- `str(Path(s).resolve())` for an absolute `s`, lexically (no symlinks):
the canonical absolute path string, `"/"` for the root, no trailing slash
otherwise.  This is the *value* of the call on strings free of embedded
null bytes; on a string containing a null byte the real call raises
`ValueError: embedded null byte` instead of returning — that error
outcome is modelled by `resolveStrE` below. -/
def resolveStr (s : String) : String := ⟨'/' :: joinSlash (resolveSegs s)⟩

/-- `pathlib`'s `/` operator on path strings: a join whose right operand,
when absolute, replaces the left operand entirely. -/
def pathlibJoin (base rel : String) : String :=
  if startswith rel "/" then rel else base ++ "/" ++ rel

/-! ## server.py: safe_path -/

/-- `safe_path` from `src/lab_2/server.py`: percent-decode the request
path, strip one leading `/`, join onto the base directory, canonicalise,
and accept the candidate iff its string form starts with the string form
of the canonicalised base directory.  This is the exception-free
behaviour (no embedded null byte reaches `Path.resolve`); the raising
outcome is modelled by `safe_pathE` below. -/
def safe_path (baseDir requestPath : String) : Option String :=
  let unquoted := unquoteStr requestPath
  let stripped := if startswith unquoted "/" then (⟨unquoted.data.drop 1⟩ : String) else unquoted
  let candidate := resolveStr (pathlibJoin baseDir stripped)
  if startswith candidate (resolveStr baseDir) then some candidate else none

/-- Modelled from the spec: "descendant of ServedRoot's canonical form".
`p` is a descendant of `root` iff the canonical components of `root` are a
prefix of the canonical components of `p` (the root itself counts). This
is the property the spec demands of `safe_path`'s results; it is *not* the
check the code performs. -/
def isDescendantB (root p : String) : Bool :=
  (resolveSegs root).isPrefixOf (resolveSegs p)

/-- C1: the claim says `safe_path` never returns a filesystem path outside
the served root — the result is a descendant of the root's canonical form
or `None` — for *all* inputs.  This fails: the guard is a plain string
`startswith` without a trailing separator, so the request path
`/../www2/x` against root `/srv/www` resolves to `/srv/www2/x`, which
passes the check (the string `"/srv/www2/x"` starts with `"/srv/www"`)
although it is not a descendant of the root.  This theorem evaluates the
code at that failing input. -/
theorem safe_path_prefix_escape :
    safe_path "/srv/www" "/../www2/x" = some "/srv/www2/x" ∧
    isDescendantB "/srv/www" "/srv/www2/x" = false := by
  constructor <;> decide

/-- C9 counterexample: the claim says a request path that percent-decodes
to a string containing a control character is Rejected by path
resolution; in fact `safe_path` has no such check: `/a%01b` decodes to a
path containing the control character `U+0001` and resolves to
`/srv/www/a\x01b`, not to `None`. -/
theorem safe_path_control_char_not_rejected :
    safe_path "/srv/www" "/a%01b" = some "/srv/www/a\x01b" ∧
    (unquoteStr "/a%01b").data.any (fun c => c.toNat < 32) = true := by
  constructor <;> decide

/-- Evaluation of `safe_path` at a request path holding one arbitrary
character `c` that is neither `%` nor `/`: the character passes through
decoding, joining and canonicalisation untouched. (Used by the C9
theorem further below, stated on the error-aware `safe_pathE`.) -/
theorem safe_path_control_char_eval (c : Char) (h1 : c ≠ '%') (h2 : c ≠ '/') :
    safe_path "/srv/www" ⟨['/', 'a', c, 'b']⟩ =
      some ⟨['/', 's', 'r', 'v', '/', 'w', 'w', 'w', '/', 'a', c, 'b']⟩ := by
  simp [safe_path, unquoteStr, unquote, unquoteAux, h1, startswith, pathlibJoin,
    resolveStr, resolveSegs, splitSlash, h2, normAcc, joinSlash, List.isPrefixOf]

/-! ## HTTP responses and the filesystem collaborator of server.py -/

/-- The observable parts of an HTTP response: status code, `Content-Type`
header (when one is sent) and body. -/
structure HttpResponse where
  status : ℕ
  contentType : Option String
  body : String
deriving DecidableEq

/-- The 404 response of `server.py` (`HTTP_404` header plus the fixed
HTML body). -/
def notFoundResponse : HttpResponse :=
  { status := 404, contentType := some "text/html; charset=utf-8",
    body := "<html><body><h1>404 Not Found</h1></body></html>" }

/-- A directory entry as produced by `sorted(path.iterdir())`: its name
and whether it is a directory. -/
structure DirEntry where
  name : String
  isDir : Bool
deriving DecidableEq

/-- The filesystem and MIME-classifier collaborators used by `server.py`:
existence and directory tests, directory enumeration (in the sorted order
`sorted(path.iterdir())` produces), file contents, and
`mimetypes.guess_type`. -/
structure RawFS where
  pathExists : String → Bool
  isDir : String → Bool
  entries : String → List DirEntry
  content : String → String
  classify : String → Option String

/-! ## server.py: guess_mime, list_directory, handle_request -/

/-- `guess_mime` from `src/lab_2/server.py`: keep the classifier's answer
only when it is one of the three allowlisted types, else `None`. -/
def guess_mime (classify : String → Option String) (p : String) : Option String :=
  match classify p with
  | some m =>
    if m = "text/html" ∨ m = "image/png" ∨ m = "application/pdf" then some m else none
  | none => none

/-- Characters `urllib.parse.quote` leaves unescaped with its default
`safe='/'`: unreserved URL characters plus the path separator. -/
def isQuoteSafe (c : Char) : Bool :=
  c.isAlphanum || c == '_' || c == '.' || c == '-' || c == '~' || c == '/'

/-- Upper-case hexadecimal digit of a value below 16. -/
def hexDigitUpper (d : ℕ) : Char :=
  if d < 10 then Char.ofNat (48 + d) else Char.ofNat (55 + d)

/-- Percent-encoding of one character (ASCII-faithful model of
`urllib.parse.quote`). -/
def quoteChar (c : Char) : List Char :=
  if isQuoteSafe c then [c]
  else ['%', hexDigitUpper (c.toNat / 16), hexDigitUpper (c.toNat % 16)]

/-- `urllib.parse.quote` with the default `safe='/'` (ASCII-faithful). -/
def pyQuote (s : String) : String := ⟨(s.data.map quoteChar).flatten⟩

/-- `os.path.join` for POSIX paths, as used on listing hrefs. -/
def ospJoin (a b : String) : String :=
  if startswith b "/" then b
  else if a = "" then b
  else if a.data.getLast? = some '/' then a ++ b
  else a ++ "/" ++ b

/-- `"sep".join(pieces)` from Python. -/
def joinWith (sep : String) : List String → String
  | [] => ""
  | [x] => x
  | x :: xs => x ++ sep ++ joinWith sep xs

/-- `list_directory` from `src/lab_2/server.py` (the body of the rendered
page): one `<li>` per entry, the href percent-quoted, but the display
name and the echoed `url_path` embedded verbatim. -/
def list_directory (fs : RawFS) (dirPath url_path : String) : String :=
  let entryLines := (fs.entries dirPath).map (fun e =>
    let name := e.name ++ (if e.isDir then "/" else "")
    let href := pyQuote (ospJoin url_path e.name)
    "<li><a href=\"/" ++ href ++ "\">" ++ name ++ "</a></li>")
  "<html><head><meta charset=\"utf-8\"></head><body><h1>Index of /" ++ url_path ++
    "</h1><ul>\n" ++ joinWith "\n" entryLines ++ "\n</ul></body></html>"

/-- The file-serving tail of `handle_request`: classify the (possibly
index-rewritten) target, 404 on an unrecognised type, else 200 with the
file's bytes. -/
def serveFile (fs : RawFS) (target : String) : HttpResponse :=
  match guess_mime fs.classify target with
  | none => notFoundResponse
  | some m => { status := 200, contentType := some m, body := fs.content target }

/-- First line of the received bytes: everything before the first CRLF. -/
def takeUntilCRLF : List Char → List Char
  | '\r' :: '\n' :: _ => []
  | c :: rest => c :: takeUntilCRLF rest
  | [] => []

/-- `s.split(stop, 1)[0]` for a one-character separator. -/
def takeUntilChar (stop : Char) : List Char → List Char
  | [] => []
  | c :: rest => if c = stop then [] else c :: takeUntilChar stop rest

/-- Python `str.split()` whitespace. -/
def isWsChar (c : Char) : Bool :=
  c == ' ' || c == '\t' || c == '\n' || c == '\r' || c == '\x0b' || c == '\x0c'

/-- Worker for `pySplitWs`; the accumulator holds the current token
reversed. -/
def splitWsAux : List Char → List Char → List String
  | [], acc => if acc = [] then [] else [(⟨acc.reverse⟩ : String)]
  | c :: rest, acc =>
    if isWsChar c then
      if acc = [] then splitWsAux rest []
      else (⟨acc.reverse⟩ : String) :: splitWsAux rest []
    else splitWsAux rest (c :: acc)

/-- Python `str.split()` with no arguments: maximal runs of
non-whitespace, no empty tokens. -/
def pySplitWs (s : String) : List String := splitWsAux s.data []

/-- `handle_request` from `src/lab_2/server.py`, as a function from the
received bytes to the response written back (`none` = the connection is
closed without any response bytes, as happens on an empty read or a
request line with fewer than two tokens).  This is the exception-free
behaviour; `handle_requestE` below additionally models the
`except Exception` path taken when `Path.resolve` raises on an embedded
null byte. -/
def handle_request (fs : RawFS) (baseDir data : String) : Option HttpResponse :=
  if data = "" then none
  else
    match pySplitWs ⟨takeUntilCRLF data.data⟩ with
    | method :: path :: _ =>
      if method ≠ "GET" then some { status := 405, contentType := none, body := "" }
      else
        let path_no_q : String := ⟨takeUntilChar '?' path.data⟩
        match safe_path baseDir path_no_q with
        | none => some notFoundResponse
        | some target =>
          if fs.pathExists target then
            if fs.isDir target then
              let index_file := target ++ "/index.html"
              if fs.pathExists index_file then some (serveFile fs index_file)
              else
                some { status := 200, contentType := some "text/html; charset=utf-8",
                       body := list_directory fs target ⟨path_no_q.data.dropWhile (· = '/')⟩ }
            else some (serveFile fs target)
          else some notFoundResponse
    | _ => none

/-! ## The raised-`ValueError` path of `server.py`

`Path.resolve` raises `ValueError: embedded null byte` when the path
string it is given contains a null byte (a `%00` escape in the request
decodes to one); `handle_request`'s bare `except Exception` then catches
it and the connection is closed with *no* response bytes.  The following
definitions extend the exception-free model above with that outcome. -/

/-- Does the string contain an embedded null byte? -/
def hasNulByte (s : String) : Bool := s.data.any (fun c => c.toNat == 0)

/-- `str(Path(s).resolve())` including its error behaviour: `none` when
the call raises `ValueError` (embedded null byte in `s`), otherwise the
lexical canonical form `resolveStr s`. -/
def resolveStrE (s : String) : Option String :=
  if hasNulByte s then none else some (resolveStr s)

/-- `safe_path` including the raised `ValueError`: the outer `none` means
the `.resolve()` call raised (the exception propagates to the caller);
`some r` means `safe_path` returned `r` (`r = none` being the Rejected
sentinel).  The candidate is resolved before the base directory is, as in
the source. -/
def safe_pathE (baseDir requestPath : String) : Option (Option String) :=
  let unquoted := unquoteStr requestPath
  let stripped := if startswith unquoted "/" then (⟨unquoted.data.drop 1⟩ : String) else unquoted
  match resolveStrE (pathlibJoin baseDir stripped) with
  | none => none
  | some candidate =>
    match resolveStrE baseDir with
    | none => none
    | some base =>
      if startswith candidate base then some (some candidate) else some none

/-- `handle_request` including the `except Exception` path of the source:
identical to `handle_request` except that the `safe_path` call may raise
(`safe_pathE` returning the outer `none`), in which case the bare
`except Exception` swallows the error and the connection is closed with
no response bytes (`none`). -/
def handle_requestE (fs : RawFS) (baseDir data : String) : Option HttpResponse :=
  if data = "" then none
  else
    match pySplitWs ⟨takeUntilCRLF data.data⟩ with
    | method :: path :: _ =>
      if method ≠ "GET" then some { status := 405, contentType := none, body := "" }
      else
        let path_no_q : String := ⟨takeUntilChar '?' path.data⟩
        match safe_pathE baseDir path_no_q with
        | none => none
        | some none => some notFoundResponse
        | some (some target) =>
          if fs.pathExists target then
            if fs.isDir target then
              let index_file := target ++ "/index.html"
              if fs.pathExists index_file then some (serveFile fs index_file)
              else
                some { status := 200, contentType := some "text/html; charset=utf-8",
                       body := list_directory fs target ⟨path_no_q.data.dropWhile (· = '/')⟩ }
            else some (serveFile fs target)
          else some notFoundResponse
    | _ => none

theorem string_data_append (a b : String) : (a ++ b).data = a.data ++ b.data := by
  cases a; cases b; rfl

theorem hasNulByte_append (a b : String) :
    hasNulByte (a ++ b) = (hasNulByte a || hasNulByte b) := by
  unfold hasNulByte
  rw [string_data_append, List.any_append]

theorem hasNulByte_pathlibJoin (base t : String) (hb : hasNulByte base = false)
    (ht : hasNulByte t = false) : hasNulByte (pathlibJoin base t) = false := by
  unfold pathlibJoin
  split
  · exact ht
  · rw [hasNulByte_append, hasNulByte_append, hb, ht]
    decide

theorem hasNulByte_drop_of_not (s : String) (h : hasNulByte s = false) :
    hasNulByte (⟨s.data.drop 1⟩ : String) = false := by
  unfold hasNulByte at h ⊢
  rw [List.any_eq_false] at h ⊢
  intro x hx
  exact h x (List.mem_of_mem_drop hx)

/-- When no embedded null byte is in play — none in the base directory
and none in the decoded request path — the error-aware `safe_pathE`
returns (does not raise) exactly what `safe_path` computes. -/
theorem safe_pathE_eq_of_no_nul (baseDir requestPath : String)
    (hbase : hasNulByte baseDir = false)
    (hp : hasNulByte (unquoteStr requestPath) = false) :
    safe_pathE baseDir requestPath = some (safe_path baseDir requestPath) := by
  unfold safe_pathE safe_path
  have hstr : hasNulByte (if startswith (unquoteStr requestPath) "/" then
      (⟨(unquoteStr requestPath).data.drop 1⟩ : String) else unquoteStr requestPath) = false := by
    split
    · exact hasNulByte_drop_of_not _ hp
    · exact hp
  have hjoin := hasNulByte_pathlibJoin baseDir _ hbase hstr
  simp only [resolveStrE, hjoin, hbase, Bool.false_eq_true, if_false]
  split <;> split <;> rfl

/-! ## Concrete filesystems used to evaluate the model -/

/-- A filesystem on which nothing exists. -/
def emptyFS : RawFS :=
  { pathExists := fun _ => false
    isDir := fun _ => false
    entries := fun _ => []
    content := fun _ => ""
    classify := fun _ => none }

/-- A filesystem holding the single plain-text file `/srv/www/notes.txt`. -/
def textOnlyFS : RawFS :=
  { pathExists := fun p => p == "/srv/www/notes.txt"
    isDir := fun _ => false
    entries := fun _ => []
    content := fun p => if p == "/srv/www/notes.txt" then "hello" else ""
    classify := fun p => if p == "/srv/www/notes.txt" then some "text/plain" else none }

/-- A filesystem holding the directory `/srv/www/docs` containing an
`index.html` whose content is `INDEX`. -/
def indexFS : RawFS :=
  { pathExists := fun p => p == "/srv/www/docs" || p == "/srv/www/docs/index.html"
    isDir := fun p => p == "/srv/www/docs"
    entries := fun p => if p == "/srv/www/docs" then [⟨"index.html", false⟩] else []
    content := fun p => if p == "/srv/www/docs/index.html" then "INDEX" else ""
    classify := fun p => if p == "/srv/www/docs/index.html" then some "text/html" else none }

/-- A filesystem whose directory `/srv/www/d` contains one file whose name
`a<b` holds an HTML-special character. -/
def uglyNameFS : RawFS :=
  { pathExists := fun p => p == "/srv/www/d" || p == "/srv/www/d/a<b"
    isDir := fun p => p == "/srv/www/d"
    entries := fun p => if p == "/srv/www/d" then [⟨"a<b", false⟩] else []
    content := fun _ => ""
    classify := fun _ => none }

/-- Does `needle` occur as a contiguous run inside the second list? -/
def listContains (needle : List Char) : List Char → Bool
  | [] => needle.isEmpty
  | c :: rest => needle.isPrefixOf (c :: rest) || listContains needle rest

/-! ## C8: what the raw-socket server answers, and when it answers nothing -/

/-- C8 counterexample: the claim says a malformed request line with fewer
than two space-separated tokens is converted to a 4xx response, never to a
silently closed connection; in fact the handler hits the bare `return`
for `len(parts) < 2` and writes nothing at all before the connection
closes. -/
theorem handle_request_malformed_line_no_response :
    handle_requestE emptyFS "/srv/www" "GET\r\nHost: a\r\n\r\n" = none := by decide

/-- C8 amended: every received request whose request line has at least
two whitespace-separated tokens *and* whose percent-decoded path is free
of embedded null bytes gets a response (405 for a non-GET method, 404 for
a rejected, missing or unsupported-type path, 200 otherwise).  No
response at all is written — the connection just closes — on an empty
read, on a request line with fewer than two tokens, and on a GET whose
decoded path contains a null byte (`Path.resolve` raises
`ValueError: embedded null byte`, which the bare `except Exception`
swallows), witnessed here by `GET /a%00b`. -/
theorem handle_request_two_tokens_responds (fs : RawFS) (baseDir data method path : String)
    (rest : List String) (hne : data ≠ "")
    (hparse : pySplitWs ⟨takeUntilCRLF data.data⟩ = method :: path :: rest)
    (hbase : hasNulByte baseDir = false)
    (hnul : hasNulByte (unquoteStr ⟨takeUntilChar '?' path.data⟩) = false) :
    (handle_requestE fs baseDir data).isSome = true ∧
    handle_requestE fs "/srv/www" "GET /a%00b HTTP/1.1\r\n\r\n" = none := by
  constructor
  · unfold handle_requestE
    rw [if_neg hne, hparse]
    dsimp only
    by_cases hm : method = "GET"
    · rw [if_neg (by simp [hm])]
      rw [safe_pathE_eq_of_no_nul baseDir _ hbase hnul]
      cases hs : safe_path baseDir ⟨takeUntilChar '?' path.data⟩ with
      | none => simp
      | some target =>
        by_cases he : fs.pathExists target = true <;>
          by_cases hd : fs.isDir target = true <;>
            by_cases hi : fs.pathExists (target ++ "/index.html") = true <;>
              simp [he, hd, hi]
    · rw [if_pos hm]
      simp
  · have hsp : safe_pathE "/srv/www" "/a%00b" = none := by decide
    unfold handle_requestE
    rw [if_neg (by decide)]
    rw [show pySplitWs ⟨takeUntilCRLF ("GET /a%00b HTTP/1.1\r\n\r\n" : String).data⟩ =
        ["GET", "/a%00b", "HTTP/1.1"] from by decide]
    dsimp only
    rw [if_neg (by decide)]
    rw [show (⟨takeUntilChar '?' ("/a%00b" : String).data⟩ : String) = "/a%00b" from by decide,
      hsp]

/-- C8 witness: the amended theorem applied to a concrete well-formed GET
request against the empty filesystem. -/
theorem handle_request_two_tokens_responds_witness :
    ("GET /x HTTP/1.1\r\n\r\n" : String) ≠ "" ∧
    pySplitWs ⟨takeUntilCRLF ("GET /x HTTP/1.1\r\n\r\n" : String).data⟩ =
      ["GET", "/x", "HTTP/1.1"] ∧
    hasNulByte (unquoteStr ⟨takeUntilChar '?' ("/x" : String).data⟩) = false ∧
    ((handle_requestE emptyFS "/srv/www" "GET /x HTTP/1.1\r\n\r\n").isSome = true ∧
      handle_requestE emptyFS "/srv/www" "GET /a%00b HTTP/1.1\r\n\r\n" = none) :=
  ⟨by decide, by decide, by decide,
    handle_request_two_tokens_responds emptyFS "/srv/www" "GET /x HTTP/1.1\r\n\r\n"
      "GET" "/x" ["HTTP/1.1"] (by decide) (by decide) (by decide) (by decide)⟩

/-! ## C9: control characters resolve; the null byte raises -/

/-- C9 amended: path resolution applies no control-character rejection,
and the two cases the original claim names behave differently.  A decoded
path containing a *non-null* control character `c` (code below 32)
resolves exactly like any other path — `/a⟨c⟩b` under root `/srv/www`
yields `/srv/www/a⟨c⟩b`, not Rejected, so such a request 404s only when
the target does not exist.  A decoded path containing a *null byte*
(e.g. `GET /a%00b`) makes `Path.resolve` raise
`ValueError: embedded null byte`; the handler's bare `except Exception`
swallows it and the connection closes with no response at all — also not
the claimed Rejected/404. -/
theorem safe_path_control_char_resolves (fs : RawFS) (c : Char)
    (h0 : c.toNat ≠ 0) (h : c.toNat < 32) :
    safe_pathE "/srv/www" ⟨['/', 'a', c, 'b']⟩ =
      some (some ⟨['/', 's', 'r', 'v', '/', 'w', 'w', 'w', '/', 'a', c, 'b']⟩) ∧
    safe_pathE "/srv/www" "/a%00b" = none ∧
    handle_requestE fs "/srv/www" "GET /a%00b HTTP/1.1\r\n\r\n" = none := by
  have h1 : c ≠ '%' := by intro hc; rw [hc] at h; exact absurd h (by decide)
  have h2 : c ≠ '/' := by intro hc; rw [hc] at h; exact absurd h (by decide)
  refine ⟨?_, by decide, ?_⟩
  · have hunq : unquoteStr ⟨['/', 'a', c, 'b']⟩ = ⟨['/', 'a', c, 'b']⟩ := by
      simp [unquoteStr, unquote, unquoteAux, h1]
    have hp : hasNulByte (unquoteStr ⟨['/', 'a', c, 'b']⟩) = false := by
      rw [hunq]
      unfold hasNulByte
      simp only [List.any_cons, List.any_nil, Bool.or_false]
      have e1 : (('/' : Char).toNat == 0) = false := by decide
      have e2 : (('a' : Char).toNat == 0) = false := by decide
      have e3 : (c.toNat == 0) = false := beq_eq_false_iff_ne.mpr h0
      have e4 : (('b' : Char).toNat == 0) = false := by decide
      rw [e1, e2, e3, e4]
      rfl
    rw [safe_pathE_eq_of_no_nul "/srv/www" _ (by decide) hp,
      safe_path_control_char_eval c h1 h2]
  · have hsp : safe_pathE "/srv/www" "/a%00b" = none := by decide
    unfold handle_requestE
    rw [if_neg (by decide)]
    rw [show pySplitWs ⟨takeUntilCRLF ("GET /a%00b HTTP/1.1\r\n\r\n" : String).data⟩ =
        ["GET", "/a%00b", "HTTP/1.1"] from by decide]
    dsimp only
    rw [if_neg (by decide)]
    rw [show (⟨takeUntilChar '?' ("/a%00b" : String).data⟩ : String) = "/a%00b" from by decide,
      hsp]

/-- C9 witness: the amended theorem applied at the concrete control
character `U+0001` and the empty filesystem. -/
theorem safe_path_control_char_resolves_witness :
    ('\x01' : Char).toNat ≠ 0 ∧ ('\x01' : Char).toNat < 32 ∧
    (safe_pathE "/srv/www" ⟨['/', 'a', '\x01', 'b']⟩ =
        some (some ⟨['/', 's', 'r', 'v', '/', 'w', 'w', 'w', '/', 'a', '\x01', 'b']⟩) ∧
      safe_pathE "/srv/www" "/a%00b" = none ∧
      handle_requestE emptyFS "/srv/www" "GET /a%00b HTTP/1.1\r\n\r\n" = none) :=
  ⟨by decide, by decide, safe_path_control_char_resolves emptyFS '\x01' (by decide) (by decide)⟩

/-! ## C10: the raw-socket server's content-type gate -/

/-- C10: an existing, readable, non-directory file whose extension
classifies to a MIME type other than `text/html`, `image/png` or
`application/pdf` (or to no type at all) is answered with the 404
response by the raw-socket server, even though the file exists. -/
theorem raw_server_unsupported_type_404 (fs : RawFS) (baseDir data path target : String)
    (rest : List String) (hne : data ≠ "")
    (hparse : pySplitWs ⟨takeUntilCRLF data.data⟩ = "GET" :: path :: rest)
    (hsafe : safe_path baseDir ⟨takeUntilChar '?' path.data⟩ = some target)
    (hex : fs.pathExists target = true)
    (hdir : fs.isDir target = false)
    (hmime : ∀ m, fs.classify target = some m →
      m ≠ "text/html" ∧ m ≠ "image/png" ∧ m ≠ "application/pdf") :
    handle_request fs baseDir data = some notFoundResponse := by
  unfold handle_request
  rw [if_neg hne, hparse]
  dsimp only
  rw [if_neg (by simp), hsafe]
  dsimp only
  rw [hex, hdir]
  cases hc : fs.classify target with
  | none => simp [serveFile, guess_mime, hc]
  | some m =>
    rcases hmime m hc with ⟨h1, h2, h3⟩
    simp [serveFile, guess_mime, hc, h1, h2, h3]

/-- C10 witness: the theorem applied to the concrete request
`GET /notes.txt` against the filesystem holding only the `text/plain`
file `/srv/www/notes.txt`. -/
theorem raw_server_unsupported_type_404_witness :
    textOnlyFS.pathExists "/srv/www/notes.txt" = true ∧
    textOnlyFS.classify "/srv/www/notes.txt" = some "text/plain" ∧
    handle_request textOnlyFS "/srv/www" "GET /notes.txt HTTP/1.1\r\n\r\n" =
      some notFoundResponse :=
  ⟨by decide, by decide,
    raw_server_unsupported_type_404 textOnlyFS "/srv/www" "GET /notes.txt HTTP/1.1\r\n\r\n"
      "/notes.txt" "/srv/www/notes.txt" ["HTTP/1.1"] (by decide) (by decide) (by decide)
      (by decide) (by decide)
      (fun m hm => by
        simp only [textOnlyFS] at hm
        rw [if_pos (by decide)] at hm
        cases hm
        exact ⟨by decide, by decide, by decide⟩)⟩

/-! ## C7 (raw-server half): index.html delegation -/

/-- C7 amended (raw-socket server): when a request resolves to an existing
directory that contains an `index.html`, `handle_request` rewrites the
target to that index file and serves its content through the file case.
(The threaded variants do *not* do this — see the counterexample below.) -/
theorem raw_server_serves_index (fs : RawFS) (baseDir data path target m : String)
    (rest : List String) (hne : data ≠ "")
    (hparse : pySplitWs ⟨takeUntilCRLF data.data⟩ = "GET" :: path :: rest)
    (hsafe : safe_path baseDir ⟨takeUntilChar '?' path.data⟩ = some target)
    (hex : fs.pathExists target = true)
    (hdir : fs.isDir target = true)
    (hidx : fs.pathExists (target ++ "/index.html") = true)
    (hmime : guess_mime fs.classify (target ++ "/index.html") = some m) :
    handle_request fs baseDir data =
      some { status := 200, contentType := some m,
             body := fs.content (target ++ "/index.html") } := by
  unfold handle_request
  rw [if_neg hne, hparse]
  dsimp only
  rw [if_neg (by simp), hsafe]
  dsimp only
  rw [hex, hdir, hidx]
  simp [serveFile, hmime]

/-- C7 witness: the raw-server theorem applied to the concrete request
`GET /docs` against the filesystem whose directory `/srv/www/docs`
contains `index.html` with content `INDEX`. -/
theorem raw_server_serves_index_witness :
    indexFS.isDir "/srv/www/docs" = true ∧
    indexFS.pathExists "/srv/www/docs/index.html" = true ∧
    handle_request indexFS "/srv/www" "GET /docs HTTP/1.1\r\n\r\n" =
      some { status := 200, contentType := some "text/html", body := "INDEX" } :=
  ⟨by decide, by decide, by
    have h := raw_server_serves_index indexFS "/srv/www" "GET /docs HTTP/1.1\r\n\r\n"
      "/docs" "/srv/www/docs" "text/html" ["HTTP/1.1"] (by decide) (by decide) (by decide)
      (by decide) (by decide) (by decide) (by decide)
    simpa using h⟩

/-! ## C6 counterexample: the raw-socket listing does not escape -/

/-- C6 counterexample: the claim says every file name appears HTML-escaped
in every variant's rendered listing; the raw-socket `list_directory`
embeds entry names verbatim: the listing of a directory holding a file
named `a<b` contains the raw run `a<b` and does not contain the escaped
form `a&lt;b`. -/
theorem raw_listing_embeds_name_raw :
    listContains "a<b".data (list_directory uglyNameFS "/srv/www/d" "d").data = true ∧
    listContains "a&lt;b".data (list_directory uglyNameFS "/srv/www/d" "d").data = false := by
  constructor <;> decide

/-! ## The threaded servers (multithreaded_server_lock.py / _no_lock.py)

Sequentially, one `do_GET` call of the two threaded variants behaves
identically (the lock only matters under interleaving, which is modelled
separately below), so a single function models both. Timestamps are
rationals standing for the float seconds of `time.time()`; every value
the claims mention is exactly representable. -/

/-- `RATE_LIMIT` from the threaded servers. -/
def RATE_LIMIT : ℕ := 5

/-- Result of the rate-limit check. -/
inductive AdmitResult where
  | Admitted
  | Denied
deriving DecidableEq

/-- The sliding-window admission check of the threaded `do_GET`: keep the
timestamps younger than one second; if at least `RATE_LIMIT` remain,
deny and leave the stored list as it was (the pruned copy is local and
is discarded); otherwise store the pruned list with `now` appended. -/
def rateAdmit (timestamps : List ℚ) (now : ℚ) : AdmitResult × List ℚ :=
  let ts := timestamps.filter (fun t => now - t < 1)
  if RATE_LIMIT ≤ ts.length then (.Denied, timestamps)
  else (.Admitted, ts ++ [now])

/-- `html.escape` (with its default `quote=True`) on one character. -/
def escapeChar (c : Char) : List Char :=
  if c = '&' then "&amp;".data
  else if c = '<' then "&lt;".data
  else if c = '>' then "&gt;".data
  else if c = '"' then "&quot;".data
  else if c = Char.ofNat 39 then "&#x27;".data
  else [c]

/-- `html.escape` with `quote=True`, as imported by the threaded
`list_directory`. -/
def htmlEscape (s : String) : String := ⟨(s.data.map escapeChar).flatten⟩

/-- The decimal digit characters. -/
def digitChar (d : ℕ) : Char :=
  if d = 0 then '0' else if d = 1 then '1' else if d = 2 then '2' else if d = 3 then '3'
  else if d = 4 then '4' else if d = 5 then '5' else if d = 6 then '6' else if d = 7 then '7'
  else if d = 8 then '8' else '9'

/-- Decimal digits of `n`, most significant first, prepended to `acc`;
the fuel argument (`n+1` always suffices) makes the recursion structural. -/
def natToCharsAux : ℕ → ℕ → List Char → List Char
  | 0, _, acc => acc
  | fuel+1, n, acc =>
    if n < 10 then digitChar n :: acc
    else natToCharsAux fuel (n / 10) (digitChar (n % 10) :: acc)

/-- Python `str(n)` for a non-negative integer. -/
def natToStr (n : ℕ) : String := ⟨natToCharsAux (n+1) n []⟩

/-- The filesystem collaborators used by the threaded handlers:
`translate_path` (inherited from `SimpleHTTPRequestHandler`), `os.path`
tests, `os.listdir` (the handler sorts it; the model receives it already
sorted), file contents and `mimetypes.guess_type`. -/
structure ThreadedFS where
  translate_path : String → String
  isdir : String → Bool
  pathExists : String → Bool
  listdir : String → List String
  content : String → String
  guess_type : String → Option String

/-- `request_counter[k]` of a `defaultdict(int)` stored as an
association list. -/
def counterGet (m : List (String × ℕ)) (k : String) : ℕ :=
  match m.find? (fun p => p.1 = k) with
  | some p => p.2
  | none => 0

/-- Store `v` under `k`, replacing an existing binding. -/
def counterSet (m : List (String × ℕ)) (k : String) (v : ℕ) : List (String × ℕ) :=
  match m with
  | [] => [(k, v)]
  | p :: rest => if p.1 = k then (k, v) :: rest else p :: counterSet rest k v

/-- `request_counter[k] += 1`. -/
def counterIncr (m : List (String × ℕ)) (k : String) : List (String × ℕ) :=
  counterSet m k (counterGet m k + 1)

/-- The process-wide mutable state of a threaded server, for one client:
that client's entry of `rate_limit_dict` and the `request_counter`
table. -/
structure ServerState where
  window : List ℚ
  request_counter : List (String × ℕ)
deriving DecidableEq

/-- One rendered line of the threaded `list_directory`: both the link
target and the link text are the HTML-escaped display name, annotated
with the hit count of the entry's request path. -/
def listingLine (fs : ThreadedFS) (counter : List (String × ℕ))
    (selfPath dirPath name : String) : String :=
  let fullname := ospJoin dirPath name
  let display_name := name ++ (if fs.isdir fullname then "/" else "")
  let relative_path := ospJoin selfPath name
  let count := counterGet counter relative_path
  "<li><a href=\"" ++ htmlEscape display_name ++ "\">" ++ htmlEscape display_name ++
    "</a> - Requests: " ++ natToStr count ++ "</li>"

/-- `list_directory` of the threaded handlers: title and heading echo the
escaped request path, then one line per (sorted) entry. -/
def list_directory_threaded (fs : ThreadedFS) (counter : List (String × ℕ))
    (selfPath dirPath : String) : HttpResponse :=
  let displaypath := htmlEscape selfPath
  let r :=
    ["<html><head><title>Directory listing for " ++ displaypath ++ "</title></head>",
     "<body><h2>Directory listing for " ++ displaypath ++ "</h2><hr><ul>"] ++
    (fs.listdir dirPath).map (listingLine fs counter selfPath dirPath) ++
    ["</ul><hr></body></html>"]
  { status := 200, contentType := some "text/html; charset=utf-8",
    body := joinWith "\n" r }

/-- `do_GET` of the threaded handlers, as a function of the shared state,
the current time and the request path: rate-limit check first (429 and
untouched state on denial), then the counter update, then directory
listing / file / 404. -/
def do_GET (fs : ThreadedFS) (st : ServerState) (now : ℚ) (path : String) :
    HttpResponse × ServerState :=
  match rateAdmit st.window now with
  | (.Denied, w) =>
    ({ status := 429, contentType := none, body := "Rate limit exceeded\n" },
     { st with window := w })
  | (.Admitted, w) =>
    let st1 : ServerState :=
      { window := w, request_counter := counterIncr st.request_counter path }
    let filepath := fs.translate_path path
    if fs.isdir filepath then
      (list_directory_threaded fs st1.request_counter path filepath, st1)
    else if fs.pathExists filepath then
      ({ status := 200,
         contentType := some (match fs.guess_type filepath with
           | some m => m
           | none => "application/octet-stream"),
         body := fs.content filepath }, st1)
    else
      ({ status := 404, contentType := none, body := "File not found" }, st1)

/-! ## C2: rate limiter boundary -/

/-- C2: with the limit of 5/second, five admissions recorded at t = 0
deny a sixth call at t = 0.1 without recording it (the stored window is
returned unchanged), and a call at t = 1.1 is admitted because all five
entries satisfy `now - entry >= 1` and are pruned first (the new window
holds just t = 1.1). -/
theorem rate_limiter_boundary :
    rateAdmit (List.replicate 5 (0:ℚ)) (1/10) = (.Denied, List.replicate 5 0) ∧
    rateAdmit (List.replicate 5 (0:ℚ)) (11/10) = (.Admitted, [11/10]) := by
  constructor <;> norm_num [rateAdmit, RATE_LIMIT, List.filter, List.replicate]

/-! ## C5: a denied request changes nothing -/

/-- C5: whenever the rate-limit check denies a request, `do_GET` answers
with status 429 and the short plain-text body, and the returned state is
exactly the state it was given: the per-path counter is untouched, no
file or listing content is produced, and the denied client's window is
not extended with `now` (the locally pruned copy is discarded, so the
stored state is unchanged outright). -/
theorem denied_request_leaves_state_unchanged (fs : ThreadedFS) (st : ServerState)
    (now : ℚ) (path : String)
    (h : RATE_LIMIT ≤ (st.window.filter (fun t => now - t < 1)).length) :
    do_GET fs st now path =
      ({ status := 429, contentType := none, body := "Rate limit exceeded\n" }, st) := by
  unfold do_GET rateAdmit
  rw [if_pos h]

/-- C5 witness: the theorem applied to a window of five timestamps at
t = 0 and a request at t = 0.1. -/
theorem denied_request_leaves_state_unchanged_witness :
    RATE_LIMIT ≤ ((List.replicate 5 (0:ℚ)).filter (fun t => 1/10 - t < 1)).length ∧
    do_GET ⟨fun p => p, fun _ => false, fun _ => false, fun _ => [], fun _ => "", fun _ => none⟩
        ⟨List.replicate 5 0, []⟩ (1/10) "/index.html" =
      ({ status := 429, contentType := none, body := "Rate limit exceeded\n" },
       ⟨List.replicate 5 0, []⟩) := by
  have h : RATE_LIMIT ≤
      (((⟨List.replicate 5 0, []⟩ : ServerState)).window.filter
        (fun t => (1:ℚ)/10 - t < 1)).length := by
    norm_num [RATE_LIMIT, List.filter, List.replicate]
  exact ⟨h, denied_request_leaves_state_unchanged
    ⟨fun p => p, fun _ => false, fun _ => false, fun _ => [], fun _ => "", fun _ => none⟩
    ⟨List.replicate 5 0, []⟩ (1/10) "/index.html" h⟩

/-! ## C6: escaping in the threaded listing -/

/-- Number of raw `<` characters in a string. -/
def countLt (s : String) : ℕ := s.data.count '<'

theorem countLt_append (a b : String) : countLt (a ++ b) = countLt a + countLt b := by
  unfold countLt
  rw [string_data_append, List.count_append]

theorem lt_not_mem_escapeChar (c : Char) : '<' ∉ escapeChar c := by
  unfold escapeChar
  split_ifs with h1 h2 h3 h4 h5
  · decide
  · decide
  · decide
  · decide
  · decide
  · simp only [List.mem_singleton]
    intro hc
    exact h2 hc.symm

theorem countLt_htmlEscape (s : String) : countLt (htmlEscape s) = 0 := by
  unfold countLt htmlEscape
  rw [List.count_eq_zero]
  intro hmem
  rw [List.mem_flatten] at hmem
  rcases hmem with ⟨l, hl, hcl⟩
  rw [List.mem_map] at hl
  rcases hl with ⟨c, _, rfl⟩
  exact lt_not_mem_escapeChar c hcl

theorem digitChar_ne_lt (d : ℕ) : digitChar d ≠ '<' := by
  unfold digitChar
  split_ifs <;> decide

theorem lt_not_mem_natToCharsAux (fuel n : ℕ) (acc : List Char) (hacc : '<' ∉ acc) :
    '<' ∉ natToCharsAux fuel n acc := by
  induction fuel generalizing n acc with
  | zero => exact hacc
  | succ fuel ih =>
    unfold natToCharsAux
    split_ifs
    · intro hmem
      rcases List.mem_cons.1 hmem with h | h
      · exact digitChar_ne_lt n h.symm
      · exact hacc h
    · refine ih (n / 10) (digitChar (n % 10) :: acc) ?_
      intro hmem
      rcases List.mem_cons.1 hmem with h | h
      · exact digitChar_ne_lt (n % 10) h.symm
      · exact hacc h

theorem countLt_natToStr (n : ℕ) : countLt (natToStr n) = 0 := by
  unfold countLt natToStr
  rw [List.count_eq_zero]
  exact lt_not_mem_natToCharsAux (n+1) n [] (by simp)

theorem countLt_joinWith (xs : List String) :
    countLt (joinWith "\n" xs) = (xs.map countLt).sum := by
  induction xs with
  | nil => decide
  | cons x xs ih =>
    cases xs with
    | nil => simp [joinWith]
    | cons y ys =>
      have : joinWith "\n" (x :: y :: ys) = x ++ "\n" ++ joinWith "\n" (y :: ys) := rfl
      rw [this, countLt_append, countLt_append, ih]
      have hnl : countLt "\n" = 0 := by decide
      simp [hnl]

theorem countLt_listingLine (fs : ThreadedFS) (counter : List (String × ℕ))
    (selfPath dirPath name : String) :
    countLt (listingLine fs counter selfPath dirPath name) = 4 := by
  unfold listingLine
  simp only [countLt_append, countLt_htmlEscape, countLt_natToStr]
  decide

/-- C6 amended: in the threaded servers' rendered listing, every
user-influenceable string — every entry name and the echoed request path —
is passed through `html.escape` before being embedded, so the number of
raw `<` characters in the body is exactly the count contributed by the
fixed HTML template (14, plus 4 per entry), whatever names, counter
contents and request path occur.  The raw-socket server violates the
original claim; see the counterexample on its `list_directory`. -/
theorem threaded_listing_escapes (fs : ThreadedFS) (counter : List (String × ℕ))
    (selfPath dirPath : String) :
    countLt (list_directory_threaded fs counter selfPath dirPath).body =
      14 + 4 * (fs.listdir dirPath).length := by
  unfold list_directory_threaded
  dsimp only
  rw [countLt_joinWith]
  rw [List.map_append, List.map_append, List.sum_append, List.sum_append]
  have h1 : countLt ("<html><head><title>Directory listing for " ++ htmlEscape selfPath ++
      "</title></head>") = 5 := by
    rw [countLt_append, countLt_append, countLt_htmlEscape]
    decide
  have h2 : countLt ("<body><h2>Directory listing for " ++ htmlEscape selfPath ++
      "</h2><hr><ul>") = 5 := by
    rw [countLt_append, countLt_append, countLt_htmlEscape]
    decide
  have h3 : ((fs.listdir dirPath).map (listingLine fs counter selfPath dirPath)).map countLt =
      (fs.listdir dirPath).map (fun _ => 4) := by
    rw [List.map_map]
    exact List.map_congr_left (fun name _ => countLt_listingLine fs counter selfPath dirPath name)
  rw [h3]
  have h4 : ((fs.listdir dirPath).map (fun _ => 4)).sum = 4 * (fs.listdir dirPath).length := by
    induction fs.listdir dirPath with
    | nil => simp
    | cons n ns ih => simp [ih]; ring
  have h5 : countLt "</ul><hr></body></html>" = 4 := by decide
  simp [h1, h2, h4, h5]
  ring

/-! ## C7 counterexample: the threaded handlers ignore index.html -/

/-- A threaded-server filesystem whose directory `/root/docs` contains an
`index.html` with content `INDEX`. -/
def threadedIndexFS : ThreadedFS :=
  { translate_path := fun p => "/root" ++ p
    isdir := fun p => p == "/root/docs"
    pathExists := fun p => p == "/root/docs" || p == "/root/docs/index.html"
    listdir := fun p => if p == "/root/docs" then ["index.html"] else []
    content := fun p => if p == "/root/docs/index.html" then "INDEX" else ""
    guess_type := fun p => if p == "/root/docs/index.html" then some "text/html" else none }

set_option maxRecDepth 8192 in
/-- C7 counterexample: the claim says *every* server variant answers a
directory request with the content of an existing `index.html`; the
threaded handlers do not — `do_GET` renders the directory listing
whenever the translated path is a directory, even though `index.html`
exists inside it, and the response body is the listing rather than the
index file's content. -/
theorem threaded_do_GET_ignores_index :
    threadedIndexFS.pathExists "/root/docs/index.html" = true ∧
    (do_GET threadedIndexFS ⟨[], []⟩ 0 "/docs").1 =
      list_directory_threaded threadedIndexFS (counterIncr [] "/docs") "/docs" "/root/docs" ∧
    (do_GET threadedIndexFS ⟨[], []⟩ 0 "/docs").1.body ≠ "INDEX" := by
  refine ⟨by decide, by decide, by decide⟩

/-! ## Concurrency: the per-path request counter under interleaving

`N` handler threads each increment `request_counter[path]` for the same
path. In `multithreaded_server_lock.py` the whole read-modify-write runs
under `counter_lock`; in `multithreaded_server_no_lock.py` the handler
reads, sleeps 10 ms, and writes back the read value plus one. Both are
modelled as small-step transition systems over explicit schedules (lists
of thread indices); the artificial delay of the unlocked version is
exactly the scheduler's freedom to interleave other threads between the
read and the write. -/

/-- Thread status for the locked increment
`with counter_lock: request_counter[path] += 1`: waiting to acquire,
holding the lock before the read, holding it after reading `reg`, or
done. -/
inductive LTState where
  | start
  | locked
  | readDone (reg : ℕ)
  | finished
deriving DecidableEq

/-- Shared state of the locked system: the counter cell of the contended
path, the lock owner, and each thread's status. -/
structure LState where
  counter : ℕ
  lock : Option ℕ
  threads : List LTState
deriving DecidableEq

/-- One step of thread `i` in the locked system: acquire (only when the
lock is free), read the counter, or write the read value plus one and
release. `none` when thread `i` cannot move. -/
def lstep (s : LState) (i : ℕ) : Option LState :=
  match s.threads[i]? with
  | some .start =>
    if s.lock = none then
      some { s with lock := some i, threads := s.threads.set i .locked }
    else none
  | some .locked =>
    some { s with threads := s.threads.set i (.readDone s.counter) }
  | some (.readDone r) =>
    some { counter := r + 1, lock := none, threads := s.threads.set i .finished }
  | _ => none

/-- Run a schedule of the locked system; `none` when a scheduled thread
cannot move. -/
def lrun (s : LState) : List ℕ → Option LState
  | [] => some s
  | i :: rest =>
    match lstep s i with
    | some s2 => lrun s2 rest
    | none => none

/-- `n` threads about to perform one locked increment on a counter at 0. -/
def linit (n : ℕ) : LState := ⟨0, none, List.replicate n .start⟩

/-- Thread statuses inside the critical section. -/
def inCrit : LTState → Prop
  | .locked => True
  | .readDone _ => True
  | _ => False

/-- Invariant of the locked system: the counter equals the number of
finished threads, a thread that has read holds the current counter value,
and any thread inside the critical section owns the lock. -/
structure LInv (s : LState) : Prop where
  cnt : s.counter = s.threads.countP (fun t => decide (t = LTState.finished))
  reg : ∀ (i r : ℕ), s.threads[i]? = some (LTState.readDone r) → r = s.counter
  own : ∀ (i : ℕ) (t : LTState), s.threads[i]? = some t → inCrit t → s.lock = some i

theorem countP_set_comm {α : Type} (p : α → Bool) (l : List α) (i : ℕ) (a b : α)
    (hi : l[i]? = some a) :
    (l.set i b).countP p + (if p a then 1 else 0) = l.countP p + (if p b then 1 else 0) := by
  induction l generalizing i with
  | nil => simp at hi
  | cons x xs ih =>
    cases i with
    | zero =>
      simp only [List.getElem?_cons_zero, Option.some.injEq] at hi
      subst hi
      simp only [List.set_cons_zero, List.countP_cons]
      omega
    | succ j =>
      simp only [List.getElem?_cons_succ] at hi
      simp only [List.set_cons_succ, List.countP_cons]
      have := ih j hi
      omega

theorem countP_set_same {α : Type} (p : α → Bool) (l : List α) (i : ℕ) (a b : α)
    (hi : l[i]? = some a) (ha : p a = false) (hb : p b = false) :
    (l.set i b).countP p = l.countP p := by
  have hc := countP_set_comm p l i a b hi
  rw [ha, hb] at hc
  simpa using hc

theorem countP_set_incr {α : Type} (p : α → Bool) (l : List α) (i : ℕ) (a b : α)
    (hi : l[i]? = some a) (ha : p a = false) (hb : p b = true) :
    (l.set i b).countP p = l.countP p + 1 := by
  have hc := countP_set_comm p l i a b hi
  rw [ha, hb] at hc
  simpa using hc

theorem lstep_cases (s s' : LState) (i : ℕ) (h : lstep s i = some s') :
    (s.threads[i]? = some LTState.start ∧ s.lock = none ∧
      s' = { s with lock := some i, threads := s.threads.set i LTState.locked }) ∨
    (s.threads[i]? = some LTState.locked ∧
      s' = { s with threads := s.threads.set i (LTState.readDone s.counter) }) ∨
    (∃ r, s.threads[i]? = some (LTState.readDone r) ∧
      s' = { counter := r + 1, lock := none, threads := s.threads.set i LTState.finished }) := by
  unfold lstep at h
  cases ht : s.threads[i]? with
  | none => rw [ht] at h; cases h
  | some t =>
    rw [ht] at h
    cases t with
    | start =>
      dsimp only at h
      split at h
      · cases h; exact Or.inl ⟨rfl, by assumption, rfl⟩
      · cases h
    | locked =>
      dsimp only at h
      cases h
      exact Or.inr (Or.inl ⟨rfl, rfl⟩)
    | readDone r =>
      dsimp only at h
      cases h
      exact Or.inr (Or.inr ⟨r, rfl, rfl⟩)
    | finished => cases h

theorem lstep_inv (s s' : LState) (i : ℕ) (h : lstep s i = some s') (hI : LInv s) :
    LInv s' ∧ s'.threads.length = s.threads.length := by
  have hlen : i < s.threads.length := by
    rcases lstep_cases s s' i h with ⟨ht, _, _⟩ | ⟨ht, _⟩ | ⟨r, ht, _⟩ <;>
    · by_contra hge
      rw [List.getElem?_eq_none (by omega)] at ht
      cases ht
  rcases lstep_cases s s' i h with ⟨ht, hl, rfl⟩ | ⟨ht, rfl⟩ | ⟨r, ht, rfl⟩
  · refine ⟨⟨?_, ?_, ?_⟩, by simp⟩
    · rw [countP_set_same (fun t => decide (t = LTState.finished)) s.threads i
        LTState.start LTState.locked ht (by decide) (by decide)]
      exact hI.cnt
    · intro i' r hi'
      by_cases hii : i' = i
      · subst hii
        rw [List.getElem?_set_eq_of_lt _ hlen] at hi'
        cases hi'
      · rw [List.getElem?_set_ne (fun hh => hii hh.symm)] at hi'
        exact hI.reg i' r hi'
    · intro i' t hi' hc
      by_cases hii : i' = i
      · subst hii; rfl
      · rw [List.getElem?_set_ne (fun hh => hii hh.symm)] at hi'
        have := hI.own i' t hi' hc
        rw [hl] at this
        cases this
  · have hlock : s.lock = some i := hI.own i LTState.locked ht trivial
    refine ⟨⟨?_, ?_, ?_⟩, by simp⟩
    · rw [countP_set_same (fun t => decide (t = LTState.finished)) s.threads i
        LTState.locked (LTState.readDone s.counter) ht (by decide) (by simp)]
      exact hI.cnt
    · intro i' r' hi'
      by_cases hii : i' = i
      · subst hii
        rw [List.getElem?_set_eq_of_lt _ hlen] at hi'
        cases hi'
        rfl
      · rw [List.getElem?_set_ne (fun hh => hii hh.symm)] at hi'
        exact hI.reg i' r' hi'
    · intro i' t hi' hc
      by_cases hii : i' = i
      · subst hii; exact hlock
      · rw [List.getElem?_set_ne (fun hh => hii hh.symm)] at hi'
        exact hI.own i' t hi' hc
  · have hlock : s.lock = some i := hI.own i (LTState.readDone r) ht trivial
    have hr : r = s.counter := hI.reg i r ht
    refine ⟨⟨?_, ?_, ?_⟩, by simp⟩
    · show r + 1 = _
      rw [countP_set_incr (fun t => decide (t = LTState.finished)) s.threads i
        (LTState.readDone r) LTState.finished ht (by simp) (by decide)]
      have h1 := hI.cnt
      omega
    · intro i' r' hi'
      by_cases hii : i' = i
      · subst hii
        rw [List.getElem?_set_eq_of_lt _ hlen] at hi'
        cases hi'
      · rw [List.getElem?_set_ne (fun hh => hii hh.symm)] at hi'
        have := hI.own i' (LTState.readDone r') hi' trivial
        rw [hlock] at this
        cases this
        exact absurd rfl hii
    · intro i' t hi' hc
      by_cases hii : i' = i
      · subst hii
        rw [List.getElem?_set_eq_of_lt _ hlen] at hi'
        cases hi'
        cases hc
      · rw [List.getElem?_set_ne (fun hh => hii hh.symm)] at hi'
        have := hI.own i' t hi' hc
        rw [hlock] at this
        cases this
        exact absurd rfl hii

theorem lrun_inv (acts : List ℕ) (s s' : LState) (h : lrun s acts = some s') (hI : LInv s) :
    LInv s' ∧ s'.threads.length = s.threads.length := by
  induction acts generalizing s with
  | nil =>
    unfold lrun at h
    cases h
    exact ⟨hI, rfl⟩
  | cons i rest ih =>
    unfold lrun at h
    cases hs : lstep s i with
    | none => rw [hs] at h; cases h
    | some s2 =>
      rw [hs] at h
      obtain ⟨hI2, hlen2⟩ := lstep_inv s s2 i hs hI
      obtain ⟨hI', hlen'⟩ := ih s2 h hI2
      exact ⟨hI', hlen'.trans hlen2⟩

theorem linit_inv (n : ℕ) : LInv (linit n) := by
  refine ⟨?_, ?_, ?_⟩
  · simp only [linit]
    rw [List.countP_eq_zero.2]
    intro a ha
    rw [List.eq_of_mem_replicate ha]
    decide
  · intro i r h
    simp only [linit, List.getElem?_replicate] at h
    split at h
    · cases h
    · cases h
  · intro i t h hc
    simp only [linit, List.getElem?_replicate] at h
    split at h
    · cases h; cases hc
    · cases h

theorem countP_eq_length_of_finished (l : List LTState)
    (h : ∀ i, i < l.length → l[i]? = some LTState.finished) :
    l.countP (fun t => decide (t = LTState.finished)) = l.length := by
  induction l with
  | nil => rfl
  | cons x xs ih =>
    have h0 := h 0 (by simp)
    simp only [List.getElem?_cons_zero, Option.some.injEq] at h0
    subst h0
    rw [List.countP_cons]
    have hx : xs.countP (fun t => decide (t = LTState.finished)) = xs.length := by
      refine ih ?_
      intro i hi
      have := h (i+1) (by simp only [List.length_cons]; omega)
      simpa using this
    simp [hx]

/-- C3: under the locked policy, increments are atomic read-modify-write
sections guarded by the lock, and every complete interleaving of `N`
concurrent increments of the same path's counter — every schedule that
runs all `N` threads to completion from the initial state — ends with the
counter equal to exactly `N`. -/
theorem locked_counter_linearizable (n : ℕ) (acts : List ℕ) (s' : LState)
    (hrun : lrun (linit n) acts = some s')
    (hdone : ∀ i, i < n → s'.threads[i]? = some LTState.finished) :
    s'.counter = n := by
  obtain ⟨hI, hlen⟩ := lrun_inv acts (linit n) s' hrun (linit_inv n)
  have hlen' : s'.threads.length = n := by simpa [linit] using hlen
  rw [hI.cnt, countP_eq_length_of_finished s'.threads (fun i hi => hdone i (hlen' ▸ hi)),
    hlen']

/-- C3 witness: the theorem applied to two threads and a schedule that
runs them one after the other. -/
theorem locked_counter_linearizable_witness :
    lrun (linit 2) [0, 0, 0, 1, 1, 1] = some ⟨2, none, [.finished, .finished]⟩ ∧
    (⟨2, none, [.finished, .finished]⟩ : LState).counter = 2 :=
  ⟨by decide,
    locked_counter_linearizable 2 [0, 0, 0, 1, 1, 1] ⟨2, none, [.finished, .finished]⟩
      (by decide) (by decide)⟩

/-- Thread status for the unlocked increment
`val = request_counter[path]; time.sleep(0.01); request_counter[path] = val + 1`:
not yet read, read `reg` (inside the deliberate delay), or done. -/
inductive RTState where
  | start
  | readDone (reg : ℕ)
  | finished
deriving DecidableEq

/-- Shared state of the unlocked system: the counter cell and each
thread's status. No lock exists. -/
structure RState where
  counter : ℕ
  threads : List RTState
deriving DecidableEq

/-- One step of thread `i` in the unlocked system: the read and the
write-back of `reg + 1` are separate steps — the `time.sleep(0.01)`
between them in the source is precisely the scheduler's freedom to run
other threads in between. -/
def rstep (s : RState) (i : ℕ) : Option RState :=
  match s.threads[i]? with
  | some .start => some { s with threads := s.threads.set i (.readDone s.counter) }
  | some (.readDone r) => some { counter := r + 1, threads := s.threads.set i .finished }
  | _ => none

/-- Run a schedule of the unlocked system. -/
def rrun (s : RState) : List ℕ → Option RState
  | [] => some s
  | i :: rest =>
    match rstep s i with
    | some s2 => rrun s2 rest
    | none => none

/-- `n` threads about to perform one unlocked increment on a counter at 0. -/
def rinit (n : ℕ) : RState := ⟨0, List.replicate n .start⟩

/-- The schedule `a, a+1, …, a+b-1`. -/
def idxRange : ℕ → ℕ → List ℕ
  | _, 0 => []
  | a, b+1 => a :: idxRange (a+1) b

theorem getElem?_replicate_append {α : Type} (x : α) (l : List α) (a : ℕ) :
    (List.replicate a x ++ l)[a]? = l[0]? := by
  induction a with
  | zero => simp
  | succ k ih => simpa [List.replicate_succ] using ih

theorem set_replicate_append {α : Type} (x y : α) (l : List α) (a : ℕ) :
    (List.replicate a x ++ l).set a y = List.replicate a x ++ l.set 0 y := by
  induction a with
  | zero => simp
  | succ k ih => simp [List.replicate_succ, ih]

theorem rrun_append (s : RState) (l1 l2 : List ℕ) :
    rrun s (l1 ++ l2) =
      match rrun s l1 with
      | some t => rrun t l2
      | none => none := by
  induction l1 generalizing s with
  | nil => rfl
  | cons i rest ih =>
    cases hs : rstep s i with
    | none => simp only [List.cons_append, rrun, hs]
    | some s2 =>
      simp only [List.cons_append, rrun, hs]
      exact ih s2

theorem racy_read_phase (c : ℕ) (b a : ℕ) :
    rrun ⟨c, List.replicate a (.readDone c) ++ List.replicate b .start⟩ (idxRange a b) =
      some ⟨c, List.replicate (a + b) (.readDone c)⟩ := by
  induction b generalizing a with
  | zero => simp [idxRange, rrun]
  | succ k ih =>
    have hget : (List.replicate a (RTState.readDone c) ++
        List.replicate (k+1) RTState.start)[a]? = some RTState.start := by
      rw [getElem?_replicate_append]
      simp [List.replicate_succ]
    have hset : (List.replicate a (RTState.readDone c) ++
          List.replicate (k+1) RTState.start).set a (RTState.readDone c) =
        List.replicate (a+1) (RTState.readDone c) ++ List.replicate k RTState.start := by
      rw [set_replicate_append]
      rw [show (List.replicate (k+1) RTState.start).set 0 (RTState.readDone c) =
          RTState.readDone c :: List.replicate k RTState.start from by
        simp [List.replicate_succ]]
      rw [List.replicate_succ']
      exact List.append_cons _ _ _
    have hstep : rstep ⟨c, List.replicate a (RTState.readDone c) ++
        List.replicate (k+1) RTState.start⟩ a =
        some ⟨c, List.replicate (a+1) (RTState.readDone c) ++
          List.replicate k RTState.start⟩ := by
      unfold rstep
      rw [hget]
      dsimp only
      rw [hset]
    have hred : rrun ⟨c, List.replicate a (RTState.readDone c) ++
          List.replicate (k+1) RTState.start⟩ (idxRange a (k+1)) =
        rrun ⟨c, List.replicate (a+1) (RTState.readDone c) ++
          List.replicate k RTState.start⟩ (idxRange (a+1) k) := by
      show rrun _ (a :: idxRange (a+1) k) = _
      simp only [rrun, hstep]
    rw [hred, ih (a+1)]
    rw [show a + 1 + k = a + (k + 1) from by omega]

theorem racy_write_phase (r : ℕ) (b a c : ℕ) :
    rrun ⟨c, List.replicate a .finished ++ List.replicate (b+1) (.readDone r)⟩
        (idxRange a (b+1)) =
      some ⟨r + 1, List.replicate (a + (b+1)) .finished⟩ := by
  induction b generalizing a c with
  | zero =>
    have hget : (List.replicate a RTState.finished ++
        List.replicate 1 (RTState.readDone r))[a]? = some (RTState.readDone r) := by
      rw [getElem?_replicate_append]
      rfl
    have hset : (List.replicate a RTState.finished ++
          List.replicate 1 (RTState.readDone r)).set a RTState.finished =
        List.replicate (a+1) RTState.finished := by
      rw [set_replicate_append]
      rw [show (List.replicate 1 (RTState.readDone r)).set 0 RTState.finished =
          [RTState.finished] from rfl]
      exact (List.replicate_succ' _ _).symm
    have hstep : rstep ⟨c, List.replicate a RTState.finished ++
        List.replicate 1 (RTState.readDone r)⟩ a =
        some ⟨r + 1, List.replicate (a+1) RTState.finished⟩ := by
      unfold rstep
      rw [hget]
      dsimp only
      rw [hset]
    show rrun _ (a :: idxRange (a+1) 0) = _
    simp only [rrun, hstep, idxRange]
  | succ k ih =>
    have hget : (List.replicate a RTState.finished ++
        List.replicate (k+2) (RTState.readDone r))[a]? = some (RTState.readDone r) := by
      rw [getElem?_replicate_append]
      rfl
    have hset : (List.replicate a RTState.finished ++
          List.replicate (k+2) (RTState.readDone r)).set a RTState.finished =
        List.replicate (a+1) RTState.finished ++
          List.replicate (k+1) (RTState.readDone r) := by
      rw [set_replicate_append]
      rw [show (List.replicate (k+2) (RTState.readDone r)).set 0 RTState.finished =
          RTState.finished :: List.replicate (k+1) (RTState.readDone r) from by
        simp [List.replicate_succ]]
      rw [List.append_cons, ← List.replicate_succ']
    have hstep : rstep ⟨c, List.replicate a RTState.finished ++
        List.replicate (k+2) (RTState.readDone r)⟩ a =
        some ⟨r + 1, List.replicate (a+1) RTState.finished ++
          List.replicate (k+1) (RTState.readDone r)⟩ := by
      unfold rstep
      rw [hget]
      dsimp only
      rw [hset]
    have hred : rrun ⟨c, List.replicate a RTState.finished ++
          List.replicate (k+2) (RTState.readDone r)⟩ (idxRange a (k+2)) =
        rrun ⟨r + 1, List.replicate (a+1) RTState.finished ++
          List.replicate (k+1) (RTState.readDone r)⟩ (idxRange (a+1) (k+1)) := by
      show rrun _ (a :: idxRange (a+1) (k+1)) = _
      simp only [rrun, hstep]
    rw [hred, ih (a+1) (r+1)]
    rw [show a + 1 + (k + 1) = a + (k + 1 + 1) from by omega]

/-- C4: under the unlocked policy — read the counter, deliberate delay,
write back the read value plus one — there is an interleaving of `N`
concurrent increments of the same path's counter (any `N ≥ 2`) that runs
every thread to completion yet ends with the counter strictly below `N`:
schedule all reads before all writes and every thread writes back `0+1`,
so `N-1` updates are lost. -/
theorem racy_counter_lost_update (n : ℕ) (hn : 2 ≤ n) :
    ∃ (acts : List ℕ) (s' : RState),
      rrun (rinit n) acts = some s' ∧
      (∀ i, i < n → s'.threads[i]? = some RTState.finished) ∧
      s'.counter < n := by
  obtain ⟨m, rfl⟩ : ∃ m, n = m + 2 := ⟨n - 2, by omega⟩
  refine ⟨idxRange 0 (m+2) ++ idxRange 0 (m+2), ⟨1, List.replicate (m+2) .finished⟩,
    ?_, ?_, ?_⟩
  · rw [rrun_append]
    have h1 : rrun (rinit (m+2)) (idxRange 0 (m+2)) =
        some ⟨0, List.replicate (m+2) (.readDone 0)⟩ := by
      have := racy_read_phase 0 (m+2) 0
      simpa [rinit] using this
    rw [h1]
    have h2 := racy_write_phase 0 (m+1) 0 0
    simpa using h2
  · intro i hi
    simp [List.getElem?_replicate, hi]
  · show (1:ℕ) < m + 2
    omega

/-- C4 witness: the theorem applied at `N = 100`. -/
theorem racy_counter_lost_update_witness :
    ∃ (acts : List ℕ) (s' : RState),
      rrun (rinit 100) acts = some s' ∧
      (∀ i, i < 100 → s'.threads[i]? = some RTState.finished) ∧
      s'.counter < 100 :=
  racy_counter_lost_update 100 (by decide)
